import Mathlib

/-!
Verification of the Jenkins-to-GitHub-Actions converter
(`jenkins-to-gha-converter.py`).

The development shallowly embeds the converter's pure core:
the hand-written YAML emitter `dict_to_yaml`, the stage classifier
`_classify_stage`, the regex-based Jenkinsfile parser
(`_parse_jenkinsfile` / `_extract_stage_commands`), the workflow
generators (`_generate_maven_jobs`, `_create_maven_deliver_job`,
`_create_security_job`, `_generate_generic_jobs`,
`_generate_gha_workflow`) and the overwrite-free tree copier
`_copy_source_code`.

Python strings are modelled as Lean `String`s; Python string
operations (`in`, `startswith`, `lower`, `strip`, `split`) are
re-implemented over `List Char` so that every definition reduces in
the kernel.  Python dictionaries (always built with string keys and
insertion order significant) are modelled as association lists.  Code
that can raise (`list[-1]` on an empty list) is modelled with
`Option`.
-/

/-! ## Python string primitives -/

/-- Python whitespace class `\s` (ASCII part; all inputs considered here are
ASCII). -/
def pySpace (c : Char) : Bool :=
  c == ' ' || c == '\t' || c == '\n' || c == '\r' || c == '\x0b' || c == '\x0c'

/-- Python `str.strip()` (ASCII whitespace). -/
def pyStrip (s : String) : String :=
  String.mk (((s.data.dropWhile pySpace).reverse.dropWhile pySpace).reverse)

/-- Python `str.lower()` (ASCII; `Char.toLower` only maps `A`-`Z`). -/
def pyLower (s : String) : String := String.mk (s.data.map Char.toLower)

/-- Python substring containment on character lists. -/
def pyInList (needle : List Char) : List Char → Bool
  | [] => needle.isEmpty
  | c :: rest => needle.isPrefixOf (c :: rest) || pyInList needle rest

/-- Python `needle in hay` for strings. -/
def pyIn (needle hay : String) : Bool := pyInList needle.data hay.data

/-- Python `s.startswith(p)`. -/
def pyStartswith (s p : String) : Bool := p.data.isPrefixOf s.data

/-- Python `s.split('\n')` on character lists; always returns at least one
(possibly empty) piece. -/
def pySplitNlList : List Char → List (List Char)
  | [] => [[]]
  | c :: rest =>
    let r := pySplitNlList rest
    if c == '\n' then [] :: r
    else match r with
      | h :: t => (c :: h) :: t
      | [] => [[c]]

/-- Python `s.split('\n')` for strings. -/
def pySplitNl (s : String) : List String := (pySplitNlList s.data).map String.mk

/-- Python `'\n' in s`. -/
def hasNewline (s : String) : Bool := s.data.contains '\n'

/-! ## The WorkflowDocument universe

`dict_to_yaml` receives nested Python values built from dicts, lists,
strings, booleans and ints.  The three types are mutually inductive so
that all recursions below are structural and kernel-reducible. -/

mutual
inductive Yaml where
  | str (s : String)
  | bool (b : Bool)
  | int (n : Int)
  | map (kvs : YamlFields)
  | seq (items : YamlList)
deriving DecidableEq

inductive YamlFields where
  | nil : YamlFields
  | cons (key : String) (val : Yaml) (rest : YamlFields) : YamlFields
deriving DecidableEq

inductive YamlList where
  | nil : YamlList
  | cons (head : Yaml) (tail : YamlList) : YamlList
deriving DecidableEq
end

/-- Build an ordered field list (a Python dict literal) from a `List`. -/
def YamlFields.ofList : List (String × Yaml) → YamlFields
  | [] => .nil
  | (k, v) :: rest => .cons k v (YamlFields.ofList rest)

/-- Build a `YamlList` (a Python list literal) from a `List`. -/
def YamlList.ofList : List Yaml → YamlList
  | [] => .nil
  | x :: rest => .cons x (YamlList.ofList rest)

/-- Dict literal shorthand used by the workflow generator. -/
def ymap (l : List (String × Yaml)) : Yaml := .map (.ofList l)

/-- List literal shorthand used by the workflow generator. -/
def yseq (l : List Yaml) : Yaml := .seq (.ofList l)

/-- Python `dict[key]` / `key in dict` lookup on an ordered field list. -/
def YamlFields.find? : YamlFields → String → Option Yaml
  | .nil, _ => none
  | .cons k v rest, key => if k == key then some v else YamlFields.find? rest key

/-- Field lookup inside a `Yaml` value (none on non-mappings). -/
def Yaml.lookup : Yaml → String → Option Yaml
  | .map kvs, key => kvs.find? key
  | _, _ => none

/-- Items of a `Yaml` sequence as a `List` (none on non-sequences). -/
def YamlList.toList : YamlList → List Yaml
  | .nil => []
  | .cons x rest => x :: rest.toList

/-- Extract the element list of a sequence node. -/
def Yaml.seqList : Yaml → Option (List Yaml)
  | .seq items => some items.toList
  | _ => none

/-! ## Python `str()` / `repr()` fallback used by f-string interpolation

In `dict_to_yaml` the branches `f"{indent_str}{key}: {value}"` and
`f"{indent_str}- {item}"` interpolate the value with Python `str()`.
After the dict/list/bool/newline-string branches, `value` can only be
an int or a single-line string, but a list `item` may in principle be
any value, so `str()` is modelled for all variants.  `repr()` escaping
is modelled for the quote choice, backslash, and the common control
characters; further non-printable escaping is not modelled (no
generated document contains such strings). -/

/-- One character of Python `repr` escaping, given the chosen quote. -/
def pyEscChar (q : Char) (c : Char) : List Char :=
  if c == '\\' then ['\\', '\\']
  else if c == '\n' then ['\\', 'n']
  else if c == '\r' then ['\\', 'r']
  else if c == '\t' then ['\\', 't']
  else if c == q then ['\\', q]
  else [c]

/-- Python `repr` of a string: single quotes unless the string contains a
single quote and no double quote. -/
def pyReprStr (s : String) : String :=
  let sq : Char := Char.ofNat 39
  let dq : Char := Char.ofNat 34
  let q : Char := if s.data.contains sq && !(s.data.contains dq) then dq else sq
  String.mk (q :: (s.data.foldr (fun c acc => pyEscChar q c ++ acc) [q]))

mutual
/-- Python `str(value)` for a nested value. -/
def pyStrOf : Yaml → String
  | .str s => s
  | .bool b => if b then "True" else "False"
  | .int n => toString n
  | .seq items => "[" ++ pyReprItems items ++ "]"
  | .map kvs => "\x7b" ++ pyReprFields kvs ++ "\x7d"

/-- Python `repr(value)` for a nested value. -/
def pyReprOf : Yaml → String
  | .str s => pyReprStr s
  | .bool b => if b then "True" else "False"
  | .int n => toString n
  | .seq items => "[" ++ pyReprItems items ++ "]"
  | .map kvs => "\x7b" ++ pyReprFields kvs ++ "\x7d"

/-- Comma-separated `repr`s of list items. -/
def pyReprItems : YamlList → String
  | .nil => ""
  | .cons x .nil => pyReprOf x
  | .cons x (.cons y rest) => pyReprOf x ++ ", " ++ pyReprItems (.cons y rest)

/-- Comma-separated `repr`s of dict entries. -/
def pyReprFields : YamlFields → String
  | .nil => ""
  | .cons k v .nil => pyReprStr k ++ ": " ++ pyReprOf v
  | .cons k v (.cons k2 v2 rest) =>
    pyReprStr k ++ ": " ++ pyReprOf v ++ ", " ++ pyReprFields (.cons k2 v2 rest)
end

/-! ## The structured-document emitter `dict_to_yaml`

Faithful translation of `dict_to_yaml(data, indent=0)`
(`jenkins-to-gha-converter.py`, lines 34-66).  The Python function
returns `[]` whenever `data` is not a dict; for a dict it walks the
entries in insertion order.  `renderPairs`, `renderPair` and
`renderSeq` decompose the body of the single Python `for` loop. -/

/-- The `indent_str = "  " * indent` prefix. -/
def indentStr (indent : Nat) : String := String.mk (List.replicate (2 * indent) ' ')

mutual
/-- Toplevel of `dict_to_yaml`: non-dict data yields no lines. -/
def dict_to_yaml : Yaml → Nat → List String
  | .map kvs, indent => renderPairs kvs indent
  | _, _ => []

/-- The `for key, value in data.items()` loop. -/
def renderPairs : YamlFields → Nat → List String
  | .nil, _ => []
  | .cons k v rest, indent => renderPair k v indent ++ renderPairs rest indent

/-- One `key, value` iteration of the loop, in the source's branch order:
dict, list, bool, newline-string, inline scalar. -/
def renderPair (k : String) (v : Yaml) (indent : Nat) : List String :=
  match v with
  | .map kvs => (indentStr indent ++ k ++ ":") :: renderPairs kvs (indent + 1)
  | .seq items => (indentStr indent ++ k ++ ":") :: renderSeq items indent
  | .bool b => [indentStr indent ++ k ++ ": " ++ (if b then "true" else "false")]
  | .str s =>
    if hasNewline s then
      (indentStr indent ++ k ++ ": |") ::
        (pySplitNl s).map (fun line => indentStr indent ++ "  " ++ line)
    else [indentStr indent ++ k ++ ": " ++ s]
  | .int n => [indentStr indent ++ k ++ ": " ++ toString n]

/-- The `for item in value` loop of the list branch: a dict item emits the
marker line `indent_str + "- "`, renders the dict at `indent + 1`, glues the
stripped first rendered line onto the marker line and appends the remaining
lines unchanged; any other item is interpolated on the marker line. -/
def renderSeq : YamlList → Nat → List String
  | .nil, _ => []
  | .cons item rest, indent =>
    (match item with
     | .map kvs =>
       match renderPairs kvs (indent + 1) with
       | [] => [indentStr indent ++ "- "]
       | first :: more => (indentStr indent ++ "- " ++ pyStrip first) :: more
     | other => [indentStr indent ++ "- " ++ pyStrOf other]) ++ renderSeq rest indent
end

/-- Count of leading space characters of an emitted line. -/
def leadingSpaces (s : String) : Nat := (s.data.takeWhile (fun c => c == ' ')).length

/-! ## The stage classifier `_classify_stage` (lines 193-209)

The Python keyword tests `keyword in stage_name` are substring checks;
callers pass the already-lowercased stage name. -/

def build_keywords : List String := ["build", "compile", "package"]

def test_keywords : List String := ["test", "unit", "integration"]

def deploy_keywords : List String := ["deploy", "deliver", "publish", "release"]

def security_keywords : List String := ["security", "scan", "vulnerability", "audit"]

/-- Translation of `_classify_stage(stage_name)`: four substring-membership
tests in the source's order, with `"build"` as the fallthrough default. -/
def classify_stage (stage_name : String) : String :=
  if build_keywords.any (fun k => pyIn k stage_name) then "build"
  else if test_keywords.any (fun k => pyIn k stage_name) then "test"
  else if deploy_keywords.any (fun k => pyIn k stage_name) then "deliver"
  else if security_keywords.any (fun k => pyIn k stage_name) then "security"
  else "build"

/-- The specification's reading of the classifier, used for the refinement
comparison of claim C1: the four fixed keyword sets in the fixed priority
order build, test, deliver, security; the first set with a member occurring
in the name wins and the default is build. -/
def keyword_categories : List (String × List String) :=
  [("build", build_keywords), ("test", test_keywords),
   ("deliver", deploy_keywords), ("security", security_keywords)]

/-- Spec-side classifier: first matching category of `keyword_categories`,
defaulting to build. -/
def classify_stage_specOrder (stage_name : String) : String :=
  ((keyword_categories.find? (fun p => p.2.any (fun k => pyIn k stage_name))).map
    Prod.fst).getD "build"

/-! ## The Jenkinsfile parser (lines 153-224)

The parser uses three regexes.  Each is modelled by a deterministic
matcher over `List Char`; determinism is faithful because in each
pattern every quantified subexpression (`\s*`, `\s+`, `[^'"]+`, the
lazy `.*?`) is followed by a literal that cannot occur inside the
quantified character class, so Python's backtracking never changes the
outcome.  `findall` semantics (scan left to right, on failure advance
one character, continue after each non-overlapping match) and `search`
semantics (leftmost match) are modelled by the explicit scans below;
the fuel argument is the remaining text length plus one, which bounds
the number of scan steps. -/

/-- Quote class `['"]` of the patterns. -/
def isQuote (c : Char) : Bool := c == Char.ofNat 39 || c == Char.ofNat 34

/-- Python `\s*`: drop leading whitespace. -/
def dropSpaces (cs : List Char) : List Char := cs.dropWhile pySpace

/-- Case-insensitive literal match (re.IGNORECASE): strip `pat` from the
front of the input, comparing lowercased characters. -/
def stripPrefixCI : List Char → List Char → Option (List Char)
  | [], cs => some cs
  | _ :: _, [] => none
  | p :: ps, c :: cs => if p.toLower == c.toLower then stripPrefixCI ps cs else none

/-- Attempt the stage-declaration pattern
`stage\s*\(\s*['"]([^'"]+)['"]\s*\)` (re.IGNORECASE) at the head of the
input; on success return the captured name and the text after the match. -/
def matchStageAt (cs : List Char) : Option (List Char × List Char) :=
  match stripPrefixCI "stage".data cs with
  | none => none
  | some r1 =>
    match dropSpaces r1 with
    | '(' :: r3 =>
      match dropSpaces r3 with
      | q :: r5 =>
        if isQuote q then
          match List.span (fun c => !(isQuote c)) r5 with
          | (cap, r6) =>
            if cap.isEmpty then none
            else match r6 with
              | q2 :: r7 =>
                if isQuote q2 then
                  match dropSpaces r7 with
                  | ')' :: r9 => some (cap, r9)
                  | _ => none
                else none
              | [] => none
        else none
      | [] => none
    | _ => none

/-- `re.findall` scan for the stage pattern: try a match at every position,
advancing one character on failure and past the match on success. -/
def findStagesAux : Nat → List Char → List (List Char)
  | 0, _ => []
  | _ + 1, [] => []
  | fuel + 1, c :: rest =>
    match matchStageAt (c :: rest) with
    | some (cap, after) => cap :: findStagesAux fuel after
    | none => findStagesAux fuel rest

/-- All stage names found in the file text, in textual order
(`re.findall(stage_pattern, content, re.IGNORECASE)`, line 177). -/
def findStages (content : String) : List String :=
  (findStagesAux (content.data.length + 1) content.data).map String.mk

/-- Attempt `stage\s*\(\s*['"]NAME['"]\s*\)` (the escaped exact stage name,
re.IGNORECASE) at the head of the input; return the text after the match. -/
def matchNamedStageAt (name : List Char) (cs : List Char) : Option (List Char) :=
  match stripPrefixCI "stage".data cs with
  | none => none
  | some r1 =>
    match dropSpaces r1 with
    | '(' :: r3 =>
      match dropSpaces r3 with
      | q :: r5 =>
        if isQuote q then
          match stripPrefixCI name r5 with
          | none => none
          | some r6 =>
            match r6 with
            | q2 :: r7 =>
              if isQuote q2 then
                match dropSpaces r7 with
                | ')' :: r9 => some r9
                | _ => none
              else none
            | [] => none
        else none
      | [] => none
    | _ => none

/-- Attempt the block-terminator pattern `\}\s*\}` at the head of the input;
return the text after it. -/
def matchClose : List Char → Option (List Char)
  | '\x7d' :: r =>
    match dropSpaces r with
    | '\x7d' :: r3 => some r3
    | _ => none
  | _ => none

/-- The lazy `.*?\}\s*\}` (re.DOTALL): find the earliest position at which
the terminator pattern matches; return the text after the terminator. -/
def closeScanAux : Nat → List Char → Option (List Char)
  | 0, _ => none
  | _ + 1, [] => none
  | fuel + 1, c :: rest =>
    match matchClose (c :: rest) with
    | some after => some after
    | none => closeScanAux fuel rest

/-- Run the terminator scan over a whole suffix. -/
def closeScan (cs : List Char) : Option (List Char) := closeScanAux (cs.length + 1) cs

/-- `re.search` of the per-stage span pattern
`stage\s*\(\s*['"]NAME['"]\s*\).*?\}\s*\}` (re.DOTALL, re.IGNORECASE),
line 216: the leftmost position where the named declaration followed by a
terminator pair matches wins, and the returned span is `group(0)`, from the
declaration up to and including the terminator pair. -/
def searchSpanAux (name : List Char) : Nat → List Char → Option (List Char)
  | 0, _ => none
  | _ + 1, [] => none
  | fuel + 1, c :: rest =>
    match matchNamedStageAt name (c :: rest) with
    | some afterHead =>
      match closeScan afterHead with
      | some afterClose =>
        some ((c :: rest).take ((c :: rest).length - afterClose.length))
      | none => searchSpanAux name fuel rest
    | none => searchSpanAux name fuel rest

/-- Leftmost match span of the per-stage pattern over the full file text. -/
def searchSpan (content : List Char) (name : List Char) : Option (List Char) :=
  searchSpanAux name (content.length + 1) content

/-- Attempt the shell-command pattern `sh\s+['"]([^'"]+)['"]` (no flags,
case-sensitive) at the head of the input. -/
def matchShAt (cs : List Char) : Option (List Char × List Char) :=
  match cs with
  | 's' :: 'h' :: r1 =>
    match List.span pySpace r1 with
    | (ws, r2) =>
      if ws.isEmpty then none
      else match r2 with
        | q :: r3 =>
          if isQuote q then
            match List.span (fun c => !(isQuote c)) r3 with
            | (cap, r4) =>
              if cap.isEmpty then none
              else match r4 with
                | q2 :: r5 => if isQuote q2 then some (cap, r5) else none
                | [] => none
          else none
        | [] => none
  | _ => none

/-- `re.findall` scan for the shell-command pattern. -/
def findShAux : Nat → List Char → List (List Char)
  | 0, _ => []
  | _ + 1, [] => []
  | fuel + 1, c :: rest =>
    match matchShAt (c :: rest) with
    | some (cap, after) => cap :: findShAux fuel after
    | none => findShAux fuel rest

/-- Translation of `_extract_stage_commands(content, stage_name)`
(lines 211-224): search for the stage's span; if found, collect every
shell-invocation string inside it, else return no commands. -/
def extract_stage_commands (content : String) (stage_name : String) : List String :=
  match searchSpan content.data stage_name.data with
  | some span => (findShAux (span.length + 1) span).map String.mk
  | none => []

/-- One extracted stage: name as found, heuristic type, extracted shell
commands. -/
structure StageInfo where
  name : String
  type : String
  commands : List String
deriving DecidableEq

/-- The pipeline model assembled by `_parse_jenkinsfile`. -/
structure PipelineInfo where
  stages : List StageInfo
  tools : List String
  triggers : List String
  project_type : String
  working_directory : Option String
deriving DecidableEq

/-- Marker files present next to the Jenkinsfile, and the directory's
location relative to the input root (lines 163-173 query the filesystem for
exactly these facts). -/
structure DirMarkers where
  hasPom : Bool
  hasGradle : Bool
  hasGradleKts : Bool
  hasPackageJson : Bool
  relDir : String
deriving DecidableEq

/-- Project-type detection of `_parse_jenkinsfile` (lines 163-173): Maven
descriptor first, then Gradle, then Node; otherwise generic with no working
directory. -/
def detect_project_type (d : DirMarkers) : String × Option String :=
  if d.hasPom then ("maven", some d.relDir)
  else if d.hasGradle || d.hasGradleKts then ("gradle", some d.relDir)
  else if d.hasPackageJson then ("node", some d.relDir)
  else ("generic", none)

/-- Translation of `_parse_jenkinsfile(content, jenkinsfile)`
(lines 153-191).  Every operation on this path is total, so the model is a
total function: malformed text can only yield an empty stage list. -/
def parse_jenkinsfile (content : String) (d : DirMarkers) : PipelineInfo :=
  let pt := detect_project_type d
  { stages :=
      (findStages content).map (fun nm =>
        { name := nm
          type := classify_stage (pyLower nm)
          commands := extract_stage_commands content nm })
    tools :=
      if pyIn "jdk" (pyLower content) || pyIn "java" (pyLower content) then ["java"]
      else []
    triggers := []
    project_type := pt.1
    working_directory := pt.2 }

/-! ## The workflow generator (lines 233-489)

`_generate_maven_jobs`, `_create_maven_deliver_job` and
`_create_security_job` all evaluate `self.java_versions[-1]`, which
raises `IndexError` on an empty version list; they are therefore
modelled with `Option`, `none` standing for the raised exception.
Steps are built as ordered field lists so the in-place
`step['working-directory'] = ...` mutation is a key append.  In the
f-strings all literal GitHub-Actions `$` expressions are kept
verbatim. -/

/-- The `working_directory + "/" if working_directory else ""` prefix used
by the artifact-path f-strings. -/
def wdPrefix : Option String → String
  | some w => w ++ "/"
  | none => ""

/-- The local `working_directory` of `_generate_maven_jobs` (lines
296-300): `./` + the model's working directory, unless the latter is absent,
empty (falsy) or `"."`. -/
def effective_wd : Option String → Option String
  | some w => if w == "" || w == "." then none else some ("./" ++ w)
  | none => none

/-- The mutation loop of lines 344-347: give every step whose `run` command
starts with `mvn` an explicit `working-directory`. -/
def addWdIfRunMvnPrefix (w : String) (steps : List (List (String × Yaml))) :
    List (List (String × Yaml)) :=
  steps.map (fun st =>
    match List.lookup "run" st with
    | some (Yaml.str r) => if pyStartswith r "mvn" then st ++ [("working-directory", .str w)] else st
    | _ => st)

/-- The mutation loop of lines 413-417: give every step whose `run` command
mentions `mvn` or `java -jar` an explicit `working-directory`. -/
def addWdIfRunMvnOrJar (w : String) (steps : List (List (String × Yaml))) :
    List (List (String × Yaml)) :=
  steps.map (fun st =>
    match List.lookup "run" st with
    | some (Yaml.str r) =>
      if pyIn "mvn" r || pyIn "java -jar" r then st ++ [("working-directory", .str w)] else st
    | _ => st)

/-- The mutation loop of lines 458-462: give every step whose `run` command
mentions `mvn` an explicit `working-directory`. -/
def addWdIfRunMvn (w : String) (steps : List (List (String × Yaml))) :
    List (List (String × Yaml)) :=
  steps.map (fun st =>
    match List.lookup "run" st with
    | some (Yaml.str r) => if pyIn "mvn" r then st ++ [("working-directory", .str w)] else st
    | _ => st)

/-- Translation of `_create_maven_deliver_job(pipeline_info,
working_directory)` (lines 361-419).  `pipeline_info` is accepted but, as in
the source, unused. -/
def create_maven_deliver_job (_pipeline_info : PipelineInfo)
    (working_directory : Option String) (java_versions : List String)
    (default_runner : String) : Option Yaml :=
  match java_versions.getLast? with
  | none => none
  | some lastJv =>
    let steps : List (List (String × Yaml)) :=
      [[("name", .str "Checkout code"), ("uses", .str "actions/checkout@v4")],
       [("name", .str ("Set up JDK " ++ lastJv)),
        ("uses", .str "actions/setup-java@v4"),
        ("with", ymap
          [("java-version", .str lastJv),
           ("distribution", .str "temurin"),
           ("cache", .str "maven")])],
       [("name", .str "Download build artifacts"),
        ("uses", .str "actions/download-artifact@v4"),
        ("with", ymap
          [("name", .str "jar-artifact"),
           ("path", .str (wdPrefix working_directory ++ "target/"))])],
       [("name", .str "Install to local repository"),
        ("run", .str ("echo \"Installing Maven-built Java application to local Maven repository\"\n" ++
          "mvn jar:jar install:install help:evaluate -Dexpression=project.name"))],
       [("name", .str "Extract project information"),
        ("id", .str "project-info"),
        ("run", .str ("echo \"Extracting project name and version\"\n" ++
          "NAME=$(mvn -q -DforceStdout help:evaluate -Dexpression=project.name)\n" ++
          "VERSION=$(mvn -q -DforceStdout help:evaluate -Dexpression=project.version)\n" ++
          "echo \"PROJECT_NAME=$NAME\" >> $GITHUB_OUTPUT\n" ++
          "echo \"PROJECT_VERSION=$VERSION\" >> $GITHUB_OUTPUT\n" ++
          "echo \"Project: $NAME\"\n" ++
          "echo \"Version: $VERSION\""))],
       [("name", .str "Run application"),
        ("run", .str ("echo \"Running the Java application\"\n" ++
          "java -jar target/$\x7b\x7b steps.project-info.outputs.PROJECT_NAME \x7d\x7d-$\x7b\x7b steps.project-info.outputs.PROJECT_VERSION \x7d\x7d.jar"))]]
    let steps2 :=
      match working_directory with
      | some w => addWdIfRunMvnOrJar w steps
      | none => steps
    some (ymap
      [("needs", .str "build-and-test"),
       ("runs-on", .str default_runner),
       ("if", .str "github.ref == 'refs/heads/main'"),
       ("steps", yseq (steps2.map ymap))])

/-- Translation of `_create_security_job(pipeline_info, working_directory)`
(lines 421-464). -/
def create_security_job (_pipeline_info : PipelineInfo)
    (working_directory : Option String) (java_versions : List String)
    (default_runner : String) : Option Yaml :=
  match java_versions.getLast? with
  | none => none
  | some lastJv =>
    let steps : List (List (String × Yaml)) :=
      [[("name", .str "Checkout code"), ("uses", .str "actions/checkout@v4")],
       [("name", .str ("Set up JDK " ++ lastJv)),
        ("uses", .str "actions/setup-java@v4"),
        ("with", ymap
          [("java-version", .str lastJv),
           ("distribution", .str "temurin"),
           ("cache", .str "maven")])],
       [("name", .str "Run OWASP Dependency Check"),
        ("run", .str "mvn org.owasp:dependency-check-maven:check"),
        ("continue-on-error", .bool true)],
       [("name", .str "Upload OWASP Dependency Check results"),
        ("uses", .str "actions/upload-artifact@v4"),
        ("if", .str "always()"),
        ("with", ymap
          [("name", .str "owasp-dependency-check-report"),
           ("path", .str (wdPrefix working_directory ++ "target/dependency-check-report.html")),
           ("retention-days", .int 30)])]]
    let steps2 :=
      match working_directory with
      | some w => addWdIfRunMvn w steps
      | none => steps
    some (ymap
      [("runs-on", .str default_runner),
       ("needs", .str "build-and-test"),
       ("steps", yseq (steps2.map ymap))])

/-- The fixed first three steps of the maven `build-and-test` job
(lines 269-292). -/
def maven_base_steps : List (List (String × Yaml)) :=
  [[("name", .str "Checkout code"), ("uses", .str "actions/checkout@v4")],
   [("name", .str "Set up JDK $\x7b\x7b matrix.java-version \x7d\x7d"),
    ("uses", .str "actions/setup-java@v4"),
    ("with", ymap
      [("java-version", .str "$\x7b\x7b matrix.java-version \x7d\x7d"),
       ("distribution", .str "temurin"),
       ("cache", .str "maven")])],
   [("name", .str "Cache Maven dependencies"),
    ("uses", .str "actions/cache@v4"),
    ("with", ymap
      [("path", .str "~/.m2"),
       ("key", .str "$\x7b\x7b runner.os \x7d\x7d-m2-$\x7b\x7b hashFiles('**/pom.xml') \x7d\x7d"),
       ("restore-keys", .str "$\x7b\x7b runner.os \x7d\x7d-m2")])]]

/-- The `maven_steps` list of lines 303-341, parameterized by the effective
working directory and by `java_versions[-1]` (whose evaluation is the
possible `IndexError`, handled by the caller). -/
def maven_steps (working_directory : Option String) (lastJv : String) :
    List (List (String × Yaml)) :=
  [[("name", .str "Validate Maven project"), ("run", .str "mvn validate")],
   [("name", .str "Compile project"), ("run", .str "mvn compile")],
   [("name", .str "Run tests"), ("run", .str "mvn test")],
   [("name", .str "Generate test report"),
    ("uses", .str "dorny/test-reporter@v1"),
    ("if", .str "success() || failure()"),
    ("with", ymap
      [("name", .str "Maven Tests (JDK $\x7b\x7b matrix.java-version \x7d\x7d)"),
       ("path", .str (wdPrefix working_directory ++ "target/surefire-reports/*.xml")),
       ("reporter", .str "java-junit"),
       ("fail-on-error", .bool true)])],
   [("name", .str "Build package"), ("run", .str "mvn -B -DskipTests clean package")],
   [("name", .str "Upload build artifacts"),
    ("uses", .str "actions/upload-artifact@v4"),
    ("if", .str ("matrix.java-version == '" ++ lastJv ++ "'")),
    ("with", ymap
      [("name", .str "jar-artifact"),
       ("path", .str (wdPrefix working_directory ++ "target/*.jar")),
       ("retention-days", .int 30)])]]

/-- Translation of `_generate_maven_jobs(pipeline_info)` (lines 257-359):
the `build-and-test` job with its version matrix and step sequence, the
conditional `deliver` job, and the `security-scan` job, in insertion
order. -/
def generate_maven_jobs (pipeline_info : PipelineInfo) (java_versions : List String)
    (default_runner : String) : Option (List (String × Yaml)) :=
  match java_versions.getLast? with
  | none => none
  | some lastJv =>
    let working_directory := effective_wd pipeline_info.working_directory
    let mvnSteps :=
      match working_directory with
      | some w => addWdIfRunMvnPrefix w (maven_steps working_directory lastJv)
      | none => maven_steps working_directory lastJv
    let bat : Yaml := ymap
      [("runs-on", .str default_runner),
       ("strategy", ymap
         [("matrix", ymap
           [("java-version", yseq (java_versions.map Yaml.str))])]),
       ("steps", yseq ((maven_base_steps ++ mvnSteps).map ymap))]
    let has_deliver_stage := pipeline_info.stages.any (fun s => s.type == "deliver")
    if has_deliver_stage then
      match create_maven_deliver_job pipeline_info working_directory java_versions
          default_runner with
      | none => none
      | some dj =>
        match create_security_job pipeline_info working_directory java_versions
            default_runner with
        | none => none
        | some sj =>
          some [("build-and-test", bat), ("deliver", dj), ("security-scan", sj)]
    else
      match create_security_job pipeline_info working_directory java_versions
          default_runner with
      | none => none
      | some sj => some [("build-and-test", bat), ("security-scan", sj)]

/-- Translation of `_generate_generic_jobs(pipeline_info)` (lines 466-489):
one `build-and-test` job whose steps are a checkout followed by one step per
extracted command of every stage, guarded (as in the source) by the stage's
command list being non-empty. -/
def generate_generic_jobs (pipeline_info : PipelineInfo) (default_runner : String) :
    List (String × Yaml) :=
  let steps : List (List (String × Yaml)) :=
    [("name", .str "Checkout code"), ("uses", .str "actions/checkout@v4")] ::
      pipeline_info.stages.flatMap (fun stage =>
        if stage.commands.isEmpty then []
        else stage.commands.map (fun command =>
          [("name", .str ("Run " ++ stage.name)), ("run", .str command)]))
  [("build-and-test", ymap
    [("runs-on", .str default_runner),
     ("steps", yseq (steps.map ymap))])]

/-- The checkout step shared by the generated jobs. -/
def checkout_step : List (String × Yaml) :=
  [("name", .str "Checkout code"), ("uses", .str "actions/checkout@v4")]

/-- The per-command step of the generic job, named after its owning stage. -/
def generic_command_step (stage_name command : String) : List (String × Yaml) :=
  [("name", .str ("Run " ++ stage_name)), ("run", .str command)]

/-- The fixed trigger section of the workflow (lines 238-245). -/
def workflow_on : Yaml := ymap
  [("push", ymap [("branches", yseq [.str "main", .str "develop"])]),
   ("pull_request", ymap [("branches", yseq [.str "main"])])]

/-- Translation of `_generate_gha_workflow(pipeline_info)` (lines 233-255):
the fixed header plus maven or generic jobs depending on the project
type. -/
def generate_gha_workflow (pipeline_info : PipelineInfo) (java_versions : List String)
    (default_runner : String) : Option Yaml :=
  if pipeline_info.project_type == "maven" then
    match generate_maven_jobs pipeline_info java_versions default_runner with
    | none => none
    | some jobs =>
      some (ymap
        [("name", .str "CI/CD Pipeline"),
         ("on", workflow_on),
         ("jobs", ymap jobs)])
  else
    some (ymap
      [("name", .str "CI/CD Pipeline"),
       ("on", workflow_on),
       ("jobs", ymap (generate_generic_jobs pipeline_info default_runner))])

/-! ## The tree migrator `_copy_source_code` (lines 491-531)

The filesystem is modelled as a tree of named entries; a directory's
listing is an ordered association of unique names, and the top-level
input and output directories are such listings.  Creating a new entry
appends it to the listing; `dest_path.exists()` is a name lookup. -/

mutual
inductive FsEntry where
  | file (bytes : List Nat)
  | dir (entries : FsEntries)
deriving DecidableEq

inductive FsEntries where
  | nil : FsEntries
  | cons (name : String) (entry : FsEntry) (rest : FsEntries) : FsEntries
deriving DecidableEq
end

/-- Lookup of a name in a directory listing (`dest_path.exists()` and the
value it denotes). -/
def FsEntries.find? : FsEntries → String → Option FsEntry
  | .nil, _ => none
  | .cons n e rest, name => if n == name then some e else FsEntries.find? rest name

/-- Creation of a new entry in a directory listing. -/
def FsEntries.snoc : FsEntries → String → FsEntry → FsEntries
  | .nil, n, e => .cons n e .nil
  | .cons m x rest, n, e => .cons m x (rest.snoc n e)

/-- A name matched by `shutil.ignore_patterns(*exclude_patterns)` inside
`copytree`: `fnmatch` of the seven fixed patterns (the three patterns ending
in `/` can never match a path component, but are modelled verbatim). -/
def copytree_ignored (name : String) : Bool :=
  pyStartswith name "Jenkinsfile" || name == "jenkins/" || name == ".git/" ||
    name == "__pycache__/" || (".pyc".data.isSuffixOf name.data) ||
    name == ".DS_Store" || name == "Thumbs.db"

mutual
/-- `shutil.copytree` with the ignore function applied at every level. -/
def copytreeFilter : FsEntry → FsEntry
  | .file b => .file b
  | .dir es => .dir (copytreeFilterEntries es)

/-- Filter one directory listing by the ignore patterns. -/
def copytreeFilterEntries : FsEntries → FsEntries
  | .nil => .nil
  | .cons n e rest =>
    if copytree_ignored n then copytreeFilterEntries rest
    else .cons n (copytreeFilter e) (copytreeFilterEntries rest)
end

/-- The file-skip test of lines 512-516: substring containment of every
starless pattern, then prefix match of every starred pattern with the star
removed (`'Jenkinsfile*'` gives prefix `Jenkinsfile`, `'*.pyc'` gives prefix
`.pyc`). -/
def file_excluded (name : String) : Bool :=
  (pyIn "jenkins/" name || pyIn ".git/" name || pyIn "__pycache__/" name ||
    pyIn ".DS_Store" name || pyIn "Thumbs.db" name) ||
  (pyStartswith name "Jenkinsfile" || pyStartswith name ".pyc")

/-- The directory-skip test of lines 524-526: exact equality with a
slash-containing pattern stripped of its slash. -/
def dir_excluded (name : String) : Bool :=
  name == "jenkins" || name == ".git" || name == "__pycache__"

/-- One iteration of the `for item in self.input_path.iterdir()` loop
(lines 505-531) acting on the current output listing. -/
def copy_item (out : FsEntries) (name : String) (e : FsEntry) : FsEntries :=
  if pyStartswith name ".git" then out
  else
    match e with
    | .file b =>
      if file_excluded name then out
      else if (out.find? name).isSome then out
      else out.snoc name (.file b)
    | .dir es =>
      if dir_excluded name then out
      else if (out.find? name).isSome then out
      else out.snoc name (.dir (copytreeFilterEntries es))

/-- Translation of `_copy_source_code`: fold the input listing over the
output listing. -/
def copy_source_code : FsEntries → FsEntries → FsEntries
  | .nil, out => out
  | .cons n e rest, out => copy_source_code rest (copy_item out n e)

/-! ## Helper lemmas about the emitter's indentation -/

/-- The characters of a string are a prefix of the characters of any
extension of it. -/
theorem data_prefix_append (s t : String) : List.IsPrefix s.data (s ++ t).data := by
  have h : (s ++ t).data = s.data ++ t.data := rfl
  rw [h]
  exact List.prefix_append _ _

/-- Prefix through a three-part append. -/
theorem data_prefix_append3 (s t u : String) : List.IsPrefix s.data (s ++ t ++ u).data :=
  (data_prefix_append s t).trans (data_prefix_append (s ++ t) u)

/-- Prefix through a four-part append. -/
theorem data_prefix_append4 (s t u v : String) :
    List.IsPrefix s.data (s ++ t ++ u ++ v).data :=
  (data_prefix_append3 s t u).trans (data_prefix_append (s ++ t ++ u) v)

/-- The depth-`i` indent is a prefix of the depth-`i + 1` indent. -/
theorem indentStr_prefix_succ (i : Nat) :
    List.IsPrefix (indentStr i).data (indentStr (i + 1)).data := by
  show List.IsPrefix (List.replicate (2 * i) ' ') (List.replicate (2 * (i + 1)) ' ')
  rw [Nat.mul_succ, List.replicate_add]
  exact List.prefix_append _ _

/-- Leading-space count of an indent followed by a dash. -/
theorem takeWhile_space_replicate_dash (n : Nat) (l : List Char) :
    ((List.replicate n ' ' ++ '-' :: l).takeWhile (fun c => c == ' ')).length = n := by
  induction n with
  | zero => simp [List.takeWhile]
  | succ m ih => simp [List.replicate_succ, List.takeWhile, ih]

/-- Leading-space count of a marker line: exactly the two-spaces-per-level
indent of its depth, whatever follows the dash. -/
theorem leadingSpaces_marker (i : Nat) (s : String) :
    leadingSpaces (indentStr i ++ "- " ++ s) = 2 * i := by
  have h : (indentStr i ++ "- " ++ s).data
      = List.replicate (2 * i) ' ' ++ '-' :: ' ' :: s.data := by
    show (List.replicate (2 * i) ' ' ++ ['-', ' ']) ++ s.data
        = List.replicate (2 * i) ' ' ++ '-' :: ' ' :: s.data
    rw [List.append_assoc]
    rfl
  rw [leadingSpaces, h]
  exact takeWhile_space_replicate_dash (2 * i) (' ' :: s.data)

mutual
/-- Every line emitted for a mapping at depth `i` carries at least the
depth-`i` indent. -/
theorem renderPairs_indent_bound : ∀ (kvs : YamlFields) (i : Nat) (line : String),
    line ∈ renderPairs kvs i → List.IsPrefix (indentStr i).data line.data
  | .nil, i, line => by
    intro h
    simp [renderPairs] at h
  | .cons k v rest, i, line => by
    intro h
    simp only [renderPairs] at h
    rcases List.mem_append.mp h with h2 | h2
    · exact renderPair_indent_bound k v i line h2
    · exact renderPairs_indent_bound rest i line h2

/-- Every line emitted for one key-value pair at depth `i` carries at least
the depth-`i` indent. -/
theorem renderPair_indent_bound : ∀ (k : String) (v : Yaml) (i : Nat) (line : String),
    line ∈ renderPair k v i → List.IsPrefix (indentStr i).data line.data
  | k, .map kvs, i, line => by
    intro h
    simp only [renderPair] at h
    rcases List.mem_cons.mp h with h2 | h2
    · subst h2
      exact data_prefix_append3 _ _ _
    · exact (indentStr_prefix_succ i).trans (renderPairs_indent_bound kvs (i + 1) line h2)
  | k, .seq items, i, line => by
    intro h
    simp only [renderPair] at h
    rcases List.mem_cons.mp h with h2 | h2
    · subst h2
      exact data_prefix_append3 _ _ _
    · exact renderSeq_indent_bound items i line h2
  | k, .bool b, i, line => by
    intro h
    simp only [renderPair, List.mem_singleton] at h
    subst h
    exact data_prefix_append4 _ _ _ _
  | k, .str s, i, line => by
    intro h
    simp only [renderPair] at h
    cases hn : hasNewline s <;> rw [hn] at h <;> simp only [if_true, if_false,
      Bool.false_eq_true, ite_false, ite_true] at h
    · rw [List.mem_singleton] at h
      subst h
      exact data_prefix_append4 _ _ _ _
    · rcases List.mem_cons.mp h with h2 | h2
      · subst h2
        exact data_prefix_append3 _ _ _
      · obtain ⟨piece, _, rfl⟩ := List.mem_map.mp h2
        exact data_prefix_append3 _ _ _
  | k, .int n, i, line => by
    intro h
    simp only [renderPair, List.mem_singleton] at h
    subst h
    exact data_prefix_append4 _ _ _ _

/-- Every line emitted for a sequence at depth `i` carries at least the
depth-`i` indent. -/
theorem renderSeq_indent_bound : ∀ (items : YamlList) (i : Nat) (line : String),
    line ∈ renderSeq items i → List.IsPrefix (indentStr i).data line.data
  | .nil, i, line => by
    intro h
    simp [renderSeq] at h
  | .cons (.map kvs) rest, i, line => by
    intro h
    simp only [renderSeq] at h
    rcases List.mem_append.mp h with h2 | h2
    · rcases hr : renderPairs kvs (i + 1) with _ | ⟨first, more⟩ <;> rw [hr] at h2 <;>
        simp only [List.mem_singleton, List.mem_cons] at h2
      · rcases h2 with h3 | h3
        · subst h3
          exact data_prefix_append _ _
        · exact absurd h3 (List.not_mem_nil _)
      · rcases h2 with h3 | h3
        · subst h3
          exact data_prefix_append3 _ _ _
        · refine (indentStr_prefix_succ i).trans
            (renderPairs_indent_bound kvs (i + 1) line ?_)
          rw [hr]
          exact List.mem_cons_of_mem _ h3
    · exact renderSeq_indent_bound rest i line h2
  | .cons (.str s) rest, i, line => by
    intro h
    simp only [renderSeq] at h
    rcases List.mem_append.mp h with h2 | h2
    · rw [List.mem_singleton] at h2
      subst h2
      exact data_prefix_append3 _ _ _
    · exact renderSeq_indent_bound rest i line h2
  | .cons (.bool b) rest, i, line => by
    intro h
    simp only [renderSeq] at h
    rcases List.mem_append.mp h with h2 | h2
    · rw [List.mem_singleton] at h2
      subst h2
      exact data_prefix_append3 _ _ _
    · exact renderSeq_indent_bound rest i line h2
  | .cons (.int n) rest, i, line => by
    intro h
    simp only [renderSeq] at h
    rcases List.mem_append.mp h with h2 | h2
    · rw [List.mem_singleton] at h2
      subst h2
      exact data_prefix_append3 _ _ _
    · exact renderSeq_indent_bound rest i line h2
  | .cons (.seq inner) rest, i, line => by
    intro h
    simp only [renderSeq] at h
    rcases List.mem_append.mp h with h2 | h2
    · rw [List.mem_singleton] at h2
      subst h2
      exact data_prefix_append3 _ _ _
    · exact renderSeq_indent_bound rest i line h2
end

/-! ## Claim theorems -/

/-- Claim C10: for every WorkflowDocument whose top-level value is not a
mapping — a sequence or any scalar — the emitter `dict_to_yaml` returns the
empty sequence of lines at every indent, silently discarding the document's
content; only mapping-rooted documents produce output. -/
theorem c10_nonmapping_root_emits_nothing :
    ∀ (indent : Nat) (s : String) (b : Bool) (n : Int) (items : YamlList),
      dict_to_yaml (.seq items) indent = [] ∧
      dict_to_yaml (.str s) indent = [] ∧
      dict_to_yaml (.bool b) indent = [] ∧
      dict_to_yaml (.int n) indent = [] := by
  intro indent s b n items
  exact ⟨rfl, rfl, rfl, rfl⟩

/-- Claim C3 counterexample: rendering the document
`\x7b k: [ \x7b a: 1, b: 2 \x7d ] \x7d` at depth 0 yields the marker line
`- a: 1` with zero leading spaces, while the remaining rendered line of the
same mapping element, `  b: 2`, has two leading spaces — it is not appended
at the same indent as the marker line. -/
theorem c3_counterexample :
    dict_to_yaml (ymap [("k", yseq [ymap [("a", .int 1), ("b", .int 2)]])]) 0 =
      ["k:", "- a: 1", "  b: 2"] ∧
    ¬ (leadingSpaces "  b: 2" = leadingSpaces "- a: 1") := by
  decide

/-- Claim C3, amended: when the emitter renders a sequence element that is
a mapping, it emits the list-item marker line with the first rendered key of
that mapping concatenated onto the marker line, and the remaining rendered
lines of that mapping are appended exactly as rendered at one indent level
deeper than the marker line (each carrying at least the depth-`indent + 1`
indent of `2 * (indent + 1)` spaces, two more than the marker line's
`2 * indent` leading spaces, so they align with the text following the
`- ` marker); a scalar sequence element is emitted as the marker followed by
the scalar on one line. -/
theorem c3_sequence_element_rendering :
    ∀ (kvs : YamlFields) (rest : YamlList) (indent : Nat) (first : String)
      (more : List String),
      renderPairs kvs (indent + 1) = first :: more →
      renderSeq (.cons (.map kvs) rest) indent =
        (indentStr indent ++ "- " ++ pyStrip first) :: (more ++ renderSeq rest indent) ∧
      leadingSpaces (indentStr indent ++ "- " ++ pyStrip first) = 2 * indent ∧
      (∀ line ∈ more, List.IsPrefix (List.replicate (2 * (indent + 1)) ' ') line.data) ∧
      (∀ (s : String), renderSeq (.cons (.str s) rest) indent =
        (indentStr indent ++ "- " ++ s) :: renderSeq rest indent) ∧
      (∀ (b : Bool), renderSeq (.cons (.bool b) rest) indent =
        (indentStr indent ++ "- " ++ (if b then "True" else "False")) ::
          renderSeq rest indent) ∧
      (∀ (n : Int), renderSeq (.cons (.int n) rest) indent =
        (indentStr indent ++ "- " ++ toString n) :: renderSeq rest indent) := by
  intro kvs rest indent first more hr
  refine ⟨?_, leadingSpaces_marker indent (pyStrip first), ?_, ?_, ?_, ?_⟩
  · simp only [renderSeq, hr]
    rfl
  · intro line hline
    exact renderPairs_indent_bound kvs (indent + 1) line (hr ▸ List.mem_cons_of_mem first hline)
  · intro s
    simp only [renderSeq]
    rfl
  · intro b
    simp only [renderSeq, pyStrOf]
    rfl
  · intro n
    simp only [renderSeq, pyStrOf]
    rfl

/-- Witness for claim C3's amended theorem, instantiated at the
counterexample document's sequence element. -/
theorem c3_sequence_element_rendering_witness :
    renderPairs (YamlFields.ofList [("a", .int 1), ("b", .int 2)]) (0 + 1) =
      "  a: 1" :: ["  b: 2"] ∧
    (renderSeq (.cons (.map (YamlFields.ofList [("a", .int 1), ("b", .int 2)])) .nil) 0 =
      (indentStr 0 ++ "- " ++ pyStrip "  a: 1") :: (["  b: 2"] ++ renderSeq .nil 0) ∧
    leadingSpaces (indentStr 0 ++ "- " ++ pyStrip "  a: 1") = 2 * 0 ∧
    (∀ line ∈ ["  b: 2"], List.IsPrefix (List.replicate (2 * (0 + 1)) ' ') line.data) ∧
    (∀ (s : String), renderSeq (.cons (.str s) .nil) 0 =
      (indentStr 0 ++ "- " ++ s) :: renderSeq .nil 0) ∧
    (∀ (b : Bool), renderSeq (.cons (.bool b) .nil) 0 =
      (indentStr 0 ++ "- " ++ (if b then "True" else "False")) :: renderSeq .nil 0) ∧
    (∀ (n : Int), renderSeq (.cons (.int n) .nil) 0 =
      (indentStr 0 ++ "- " ++ toString n) :: renderSeq .nil 0)) :=
  ⟨by decide,
   c3_sequence_element_rendering (YamlFields.ofList [("a", .int 1), ("b", .int 2)])
     .nil 0 "  a: 1" ["  b: 2"] (by decide)⟩

/-- Claim C1: the stage classifier is a pure total function (a Lean `def`
with no partiality) that agrees everywhere with the specification's reading
— the four fixed keyword sets checked by substring membership in the fixed
priority order build, test, deliver, security, first match winning, default
build — and classifies the five concrete lowercased stage names as the
claim lists them. -/
theorem c1_classify_stage_priority_order :
    (∀ (s : String), classify_stage s = classify_stage_specOrder s) ∧
    classify_stage "build and test" = "build" ∧
    classify_stage "security audit" = "security" ∧
    classify_stage "deploy to prod" = "deliver" ∧
    classify_stage "run tests" = "test" ∧
    classify_stage "lint" = "build" := by
  refine ⟨?_, by decide, by decide, by decide, by decide, by decide⟩
  intro s
  by_cases h1 : build_keywords.any (fun k => pyIn k s) <;>
    by_cases h2 : test_keywords.any (fun k => pyIn k s) <;>
      by_cases h3 : deploy_keywords.any (fun k => pyIn k s) <;>
        by_cases h4 : security_keywords.any (fun k => pyIn k s) <;>
          simp [classify_stage, classify_stage_specOrder, keyword_categories,
            List.find?, h1, h2, h3, h4]

/-- Claim C5: `parse` is modelled by the total function `parse_jenkinsfile`
— every operation on its path (regex scans, substring tests, marker-file
branching) is total, so it returns a PipelineModel for every input text —
and it yields exactly one stage per match of the stage-declaration pattern;
in particular, when the text contains no match, the returned model's stage
sequence is empty. -/
theorem c5_parse_never_fails_empty_stages :
    ∀ (content : String) (d : DirMarkers),
      (parse_jenkinsfile content d).stages.length = (findStages content).length ∧
      (findStages content = [] → (parse_jenkinsfile content d).stages = []) := by
  intro content d
  constructor
  · simp [parse_jenkinsfile]
  · intro h
    simp [parse_jenkinsfile, h]

/-- Witness for claim C5 at a text with no stage declaration. -/
theorem c5_witness :
    findStages "echo hello" = [] ∧
    (parse_jenkinsfile "echo hello" ⟨false, false, false, false, ""⟩).stages = [] :=
  ⟨by decide,
   (c5_parse_never_fails_empty_stages "echo hello" ⟨false, false, false, false, ""⟩).2
     (by decide)⟩

/-- Claim C9: every StageInfo entry of a parsed model carries exactly the
commands of `extract_stage_commands` applied to its name — whose span search
starts at the leftmost (first textual) declaration of that name — so any two
entries bearing the same stage name receive identical command sequences, and
a later declaration's body never contributes a distinct command list to its
own entry. -/
theorem c9_duplicate_stage_names_share_commands :
    ∀ (content : String) (d : DirMarkers),
      (∀ s, s ∈ (parse_jenkinsfile content d).stages →
        s.commands = extract_stage_commands content s.name) ∧
      (∀ s t, s ∈ (parse_jenkinsfile content d).stages →
        t ∈ (parse_jenkinsfile content d).stages →
        s.name = t.name → s.commands = t.commands) := by
  intro content d
  have key : ∀ s, s ∈ (parse_jenkinsfile content d).stages →
      s.commands = extract_stage_commands content s.name := by
    intro s hs
    simp only [parse_jenkinsfile, List.mem_map] at hs
    obtain ⟨nm, _, rfl⟩ := hs
    rfl
  refine ⟨key, fun s t hs ht hname => ?_⟩
  rw [key s hs, key t ht, hname]

/-- Witness for claim C9: a text declaring stage `Build` twice, with
different shell commands in the two bodies; both parsed entries carry the
first span's command list `["a"]`, and the second body's `sh 'b'` appears in
neither. -/
theorem c9_witness :
    (parse_jenkinsfile
        "stage('Build')\x7b sh 'a' \x7d \x7d stage('Build')\x7b sh 'b' \x7d \x7d"
        ⟨false, false, false, false, ""⟩).stages =
      [⟨"Build", "build", ["a"]⟩, ⟨"Build", "build", ["a"]⟩] ∧
    (⟨"Build", "build", ["a"]⟩ : StageInfo).commands =
      extract_stage_commands
        "stage('Build')\x7b sh 'a' \x7d \x7d stage('Build')\x7b sh 'b' \x7d \x7d"
        (⟨"Build", "build", ["a"]⟩ : StageInfo).name :=
  ⟨by decide,
   (c9_duplicate_stage_names_share_commands
      "stage('Build')\x7b sh 'a' \x7d \x7d stage('Build')\x7b sh 'b' \x7d \x7d"
      ⟨false, false, false, false, ""⟩).1 ⟨"Build", "build", ["a"]⟩ (by decide)⟩

set_option maxRecDepth 8192 in
/-- Claim C8: maven workflow generation requires a non-empty
`targetRuntimeVersions` sequence — the generator evaluates
`java_versions[-1]`, i.e. the last element, and the `Option` model of that
access yields `none` (the raised `IndexError`) exactly when the sequence is
empty, so the generator is not total over all configurations. -/
theorem c8_maven_jobs_require_versions :
    ∀ (info : PipelineInfo) (runner : String) (java_versions : List String),
      generate_maven_jobs info java_versions runner = none ↔ java_versions = [] := by
  intro info runner jv
  constructor
  · intro h
    rcases hv : jv.getLast? with _ | v
    · exact List.getLast?_eq_none_iff.mp hv
    · exfalso
      simp only [generate_maven_jobs, create_maven_deliver_job, create_security_job,
        hv] at h
      split at h <;> simp at h
  · rintro rfl
    rfl

/-- Witness for claim C8: an empty version list makes generation fail. -/
theorem c8_witness :
    generate_maven_jobs ⟨[], [], [], "maven", none⟩ [] "ubuntu-latest" = none :=
  (c8_maven_jobs_require_versions ⟨[], [], [], "maven", none⟩ "ubuntu-latest" []).mpr rfl

/-! ## Helper lemmas for the tree migrator -/

/-- Creating a new entry never disturbs an existing lookup result. -/
theorem FsEntries.find?_snoc_preserve :
    ∀ (l : FsEntries) (name : String) (e : FsEntry) (n : String) (x : FsEntry),
      l.find? name = some e → (l.snoc n x).find? name = some e
  | .nil, name, e, n, x => by
    intro h
    simp [FsEntries.find?] at h
  | .cons m y rest, name, e, n, x => by
    intro h
    simp only [FsEntries.find?, FsEntries.snoc] at h ⊢
    by_cases hm : (m == name) = true
    · rw [if_pos hm] at h ⊢
      exact h
    · rw [if_neg hm] at h ⊢
      exact FsEntries.find?_snoc_preserve rest name e n x h

/-- One loop iteration of `_copy_source_code` never disturbs an existing
lookup result. -/
theorem copy_item_preserve :
    ∀ (out : FsEntries) (n : String) (ent : FsEntry) (name : String) (e : FsEntry),
      out.find? name = some e → (copy_item out n ent).find? name = some e := by
  intro out n ent name e h
  unfold copy_item
  split
  · exact h
  · match ent with
    | .file b =>
      by_cases h1 : file_excluded n
      · simp only [if_pos h1]
        exact h
      · simp only [if_neg h1]
        by_cases h2 : (out.find? n).isSome
        · simp only [if_pos h2]
          exact h
        · simp only [if_neg h2]
          exact FsEntries.find?_snoc_preserve out name e n (.file b) h
    | .dir es =>
      by_cases h1 : dir_excluded n
      · simp only [if_pos h1]
        exact h
      · simp only [if_neg h1]
        by_cases h2 : (out.find? n).isSome
        · simp only [if_pos h2]
          exact h
        · simp only [if_neg h2]
          exact FsEntries.find?_snoc_preserve out name e n (.dir (copytreeFilterEntries es)) h

/-- Claim C7: tree migration never overwrites an entry that already exists
at a destination path — for every input listing and every destination
state, any file or directory present at the destination before
`_copy_source_code` runs is found unchanged (the identical entry, bytes and
subtree included) after it, which covers reruns against a non-empty output
directory. -/
theorem c7_copy_never_overwrites :
    ∀ (input out : FsEntries) (name : String) (e : FsEntry),
      out.find? name = some e → (copy_source_code input out).find? name = some e
  | .nil, _, _, _ => fun h => h
  | .cons n ent rest, out, name, e => fun h =>
    c7_copy_never_overwrites rest (copy_item out n ent) name e
      (copy_item_preserve out n ent name e h)

/-- Witness for claim C7: rerunning the copy against an output that already
holds `a.txt` with bytes `[2]` leaves those bytes in place even though the
input offers different bytes `[1]` under the same name. -/
theorem c7_witness :
    (FsEntries.cons "a.txt" (.file [2]) .nil).find? "a.txt" = some (.file [2]) ∧
    (copy_source_code (FsEntries.cons "a.txt" (.file [1]) .nil)
        (FsEntries.cons "a.txt" (.file [2]) .nil)).find? "a.txt" = some (.file [2]) :=
  ⟨rfl,
   c7_copy_never_overwrites (FsEntries.cons "a.txt" (.file [1]) .nil)
     (FsEntries.cons "a.txt" (.file [2]) .nil) "a.txt" (.file [2]) rfl⟩

set_option maxRecDepth 8192 in
/-- Claim C2: for every PipelineModel whose project type is maven (and any
configuration whose runtime-version list is non-empty, as the defaults are),
the generated workflow's jobs mapping contains the keys `build-and-test`
and `security-scan`, and it contains the key `deliver` if and only if at
least one stage of the model has type `deliver`. -/
theorem c2_maven_workflow_job_keys :
    ∀ (info : PipelineInfo) (java_versions : List String) (runner : String),
      info.project_type = "maven" → java_versions ≠ [] →
      ∃ jobs,
        generate_maven_jobs info java_versions runner = some jobs ∧
        generate_gha_workflow info java_versions runner = some (ymap
          [("name", .str "CI/CD Pipeline"), ("on", workflow_on),
           ("jobs", ymap jobs)]) ∧
        (jobs.lookup "build-and-test").isSome = true ∧
        (jobs.lookup "security-scan").isSome = true ∧
        ((jobs.lookup "deliver").isSome = true ↔
          ∃ s ∈ info.stages, s.type = "deliver") := by
  intro info jv runner hpt hne
  obtain ⟨v, hv⟩ := Option.isSome_iff_exists.mp (List.getLast?_isSome.mpr hne)
  cases hd : info.stages.any (fun s => s.type == "deliver")
  · simp only [generate_maven_jobs, create_maven_deliver_job, create_security_job,
      hv, hd, if_false, Bool.false_eq_true]
    refine ⟨_, rfl, ?_, ?_, ?_, ?_⟩
    · simp only [generate_gha_workflow, hpt, beq_self_eq_true, if_true,
        generate_maven_jobs, create_maven_deliver_job, create_security_job, hv, hd,
        if_false, Bool.false_eq_true]
    · simp [List.lookup]
    · simp [List.lookup]
    · simp only [List.lookup]
      constructor
      · intro h
        simp at h
      · intro h
        obtain ⟨s, hs, hty⟩ := h
        have : info.stages.any (fun s => s.type == "deliver") = true :=
          List.any_eq_true.mpr ⟨s, hs, by simp [hty]⟩
        rw [hd] at this
        cases this
  · simp only [generate_maven_jobs, create_maven_deliver_job, create_security_job,
      hv, hd, if_true]
    refine ⟨_, rfl, ?_, ?_, ?_, ?_⟩
    · simp only [generate_gha_workflow, hpt, beq_self_eq_true, if_true,
        generate_maven_jobs, create_maven_deliver_job, create_security_job, hv, hd]
    · simp [List.lookup]
    · simp [List.lookup]
    · simp only [List.lookup]
      constructor
      · intro _
        obtain ⟨s, hs, hty⟩ := List.any_eq_true.mp hd
        exact ⟨s, hs, by simpa using hty⟩
      · intro _
        simp

/-- Witness for claim C2 at a maven model with one deliver stage and the
default version list. -/
theorem c2_witness :
    (⟨[⟨"Deploy", "deliver", ["mvn deploy"]⟩], ["java"], [], "maven", some "app"⟩ :
      PipelineInfo).project_type = "maven" ∧
    (["17", "21"] : List String) ≠ [] ∧
    (∃ jobs,
      generate_maven_jobs
          ⟨[⟨"Deploy", "deliver", ["mvn deploy"]⟩], ["java"], [], "maven", some "app"⟩
          ["17", "21"] "ubuntu-latest" = some jobs ∧
      generate_gha_workflow
          ⟨[⟨"Deploy", "deliver", ["mvn deploy"]⟩], ["java"], [], "maven", some "app"⟩
          ["17", "21"] "ubuntu-latest" = some (ymap
        [("name", .str "CI/CD Pipeline"), ("on", workflow_on), ("jobs", ymap jobs)]) ∧
      (jobs.lookup "build-and-test").isSome = true ∧
      (jobs.lookup "security-scan").isSome = true ∧
      ((jobs.lookup "deliver").isSome = true ↔
        ∃ s ∈ (⟨[⟨"Deploy", "deliver", ["mvn deploy"]⟩], ["java"], [], "maven",
          some "app"⟩ : PipelineInfo).stages, s.type = "deliver")) :=
  ⟨rfl, by decide,
   c2_maven_workflow_job_keys
     ⟨[⟨"Deploy", "deliver", ["mvn deploy"]⟩], ["java"], [], "maven", some "app"⟩
     ["17", "21"] "ubuntu-latest" rfl (by decide)⟩

set_option maxRecDepth 8192 in
/-- Claim C4: for every non-empty `targetRuntimeVersions` sequence (last
element `v`), the last step of the maven `build-and-test` job is the
artifact-upload step, and it is gated by the condition comparing the matrix
variable to `v`; in particular for `["11", "17"]` the condition is
`matrix.java-version == '17'`, which references `17` and not `11`. -/
theorem c4_upload_step_gated_by_last_version :
    (∀ (info : PipelineInfo) (java_versions : List String) (runner v : String),
      java_versions.getLast? = some v →
      (((((generate_maven_jobs info java_versions runner).bind
          (fun jobs => jobs.lookup "build-and-test")).bind
          (fun bat => bat.lookup "steps")).bind Yaml.seqList).bind
          List.getLast?).map (fun step => (step.lookup "name", step.lookup "if"))
        = some (some (.str "Upload build artifacts"),
            some (.str ("matrix.java-version == '" ++ v ++ "'")))) ∧
    (["11", "17"] : List String).getLast? = some "17" ∧
    "matrix.java-version == '" ++ "17" ++ "'" = "matrix.java-version == '17'" ∧
    pyIn "17" "matrix.java-version == '17'" = true ∧
    pyIn "11" "matrix.java-version == '17'" = false := by
  refine ⟨?_, rfl, rfl, by decide, by decide⟩
  intro info jv runner v hv
  rcases hw : info.working_directory with _ | w
  · cases hd : info.stages.any (fun s => s.type == "deliver") <;>
      simp only [generate_maven_jobs, create_maven_deliver_job, create_security_job,
        hv, hw, hd, effective_wd, Bool.false_eq_true, if_false, if_true] <;>
      rfl
  · by_cases hww : (w == "" || w == ".") = true
    · cases hd : info.stages.any (fun s => s.type == "deliver") <;>
        simp only [generate_maven_jobs, create_maven_deliver_job, create_security_job,
          hv, hw, hd, effective_wd, hww, Bool.false_eq_true, if_false, if_true] <;>
        rfl
    · cases hd : info.stages.any (fun s => s.type == "deliver") <;>
        simp only [generate_maven_jobs, create_maven_deliver_job, create_security_job,
          hv, hw, hd, effective_wd, hww, Bool.false_eq_true, if_false, if_true] <;>
        rfl

/-- Witness for claim C4 at `targetRuntimeVersions = ["11", "17"]`. -/
theorem c4_witness :
    (["11", "17"] : List String).getLast? = some "17" ∧
    (((((generate_maven_jobs ⟨[], [], [], "maven", none⟩ ["11", "17"]
        "ubuntu-latest").bind
        (fun jobs => jobs.lookup "build-and-test")).bind
        (fun bat => bat.lookup "steps")).bind Yaml.seqList).bind
        List.getLast?).map (fun step => (step.lookup "name", step.lookup "if"))
      = some (some (.str "Upload build artifacts"),
          some (.str ("matrix.java-version == '" ++ "17" ++ "'"))) :=
  ⟨rfl,
   c4_upload_step_gated_by_last_version.1 ⟨[], [], [], "maven", none⟩ ["11", "17"]
     "ubuntu-latest" "17" rfl⟩

/-- Claim C6: for every PipelineModel whose project type is not maven, the
generated workflow has a single job, `build-and-test`, whose steps are a
checkout step followed by exactly one step per extracted command across all
stages in order — no deduplication, no filtering by stage type — each named
after its owning stage; with zero stages the job contains exactly the
checkout step. -/
theorem c6_generic_workflow_single_job :
    ∀ (info : PipelineInfo) (java_versions : List String) (runner : String),
      info.project_type ≠ "maven" →
      generate_gha_workflow info java_versions runner = some (ymap
        [("name", .str "CI/CD Pipeline"), ("on", workflow_on),
         ("jobs", ymap (generate_generic_jobs info runner))]) ∧
      generate_generic_jobs info runner = [("build-and-test", ymap
        [("runs-on", .str runner),
         ("steps", yseq ((checkout_step ::
           info.stages.flatMap (fun stage =>
             stage.commands.map (generic_command_step stage.name))).map ymap))])] ∧
      (info.stages = [] → generate_generic_jobs info runner = [("build-and-test", ymap
        [("runs-on", .str runner), ("steps", yseq [ymap checkout_step])])]) := by
  intro info jv runner h
  have hguard : ∀ (stage : StageInfo),
      (if stage.commands.isEmpty then ([] : List (List (String × Yaml)))
       else stage.commands.map (fun command =>
         [("name", Yaml.str ("Run " ++ stage.name)), ("run", Yaml.str command)]))
      = stage.commands.map (generic_command_step stage.name) := by
    intro stage
    cases hc : stage.commands <;> simp [hc, generic_command_step]
  refine ⟨?_, ?_, ?_⟩
  · have hb : (info.project_type == "maven") = false := by
      simp [h]
    simp only [generate_gha_workflow, hb, Bool.false_eq_true, if_false]
  · simp only [generate_generic_jobs, hguard]
    rfl
  · intro h0
    simp [generate_generic_jobs, h0, checkout_step]

/-- Witness for claim C6 at a generic model with no stages. -/
theorem c6_witness :
    (⟨[], [], [], "generic", none⟩ : PipelineInfo).project_type ≠ "maven" ∧
    (generate_gha_workflow ⟨[], [], [], "generic", none⟩ ["17", "21"]
        "ubuntu-latest" = some (ymap
      [("name", .str "CI/CD Pipeline"), ("on", workflow_on),
       ("jobs", ymap (generate_generic_jobs ⟨[], [], [], "generic", none⟩
         "ubuntu-latest"))]) ∧
    generate_generic_jobs ⟨[], [], [], "generic", none⟩ "ubuntu-latest" =
      [("build-and-test", ymap
        [("runs-on", .str "ubuntu-latest"),
         ("steps", yseq ((checkout_step ::
           (⟨[], [], [], "generic", none⟩ : PipelineInfo).stages.flatMap (fun stage =>
             stage.commands.map (generic_command_step stage.name))).map ymap))])] ∧
    ((⟨[], [], [], "generic", none⟩ : PipelineInfo).stages = [] →
      generate_generic_jobs ⟨[], [], [], "generic", none⟩ "ubuntu-latest" =
        [("build-and-test", ymap
          [("runs-on", .str "ubuntu-latest"),
           ("steps", yseq [ymap checkout_step])])])) :=
  ⟨by decide,
   c6_generic_workflow_single_job ⟨[], [], [], "generic", none⟩ ["17", "21"]
     "ubuntu-latest" (by decide)⟩
